import Mathlib

/-!
Shallow embedding of `smac/epm/rf_with_instances.py`
(`RandomForestWithInstances`), an adapter around a native random-forest
regression engine.

Modelling choices:
* numpy float64 values are modelled by `ℚ`; the IEEE `NaN` that the adapter
  guards against in `_predict` is modelled by the two-constructor type
  `NpFloat` (`nan` or a finite `ℚ`), with `NaN < x` evaluating to `false`
  exactly as in IEEE comparisons.
* a numpy result that may be a 0-d scalar or a 1-d array is modelled by
  `NpVal` (`scalar` or `vec`), so that the shape of what `predict` returns
  is visible: `np.mean` of a vector produces a `scalar`.
* the native engine (`pyrfr`) is external to the repository; its fitted
  forest is an abstract type parameter `F`, its `predict` method an
  arbitrary function argument, and its data-container constructor a record
  of its three arguments.
* matrices are lists of rows (`List (List ℚ)`).
-/

/-- A numpy value: either a 0-d scalar or a 1-d array. `np.mean` and
`np.var` applied to a 1-d array return a 0-d scalar. -/
inductive NpVal where
  | scalar (q : ℚ)
  | vec (xs : List ℚ)
deriving DecidableEq, Repr

/-- Whether a numpy value is a 0-d scalar (as opposed to an array). -/
def NpVal.isScalar : NpVal → Bool
  | .scalar _ => true
  | .vec _ => false

/-- `np.mean` of a 1-d array: arithmetic mean of its entries. -/
def npMean (xs : List ℚ) : ℚ := xs.sum / (xs.length : ℚ)

/-- `np.var` of a 1-d array: population variance (mean of squared
deviations from the mean, no degrees-of-freedom correction). -/
def npVar (xs : List ℚ) : ℚ := npMean (xs.map (fun x => (x - npMean xs) ^ 2))

/-- A float64 that may be IEEE `NaN` (the variance reported by the native
forest can be `NaN`, which `_predict` guards against). -/
inductive NpFloat where
  | nan
  | fin (q : ℚ)
deriving DecidableEq, Repr

/-- IEEE `<` on possibly-`NaN` floats: any comparison involving `NaN` is
`false`. -/
def NpFloat.lt : NpFloat → NpFloat → Bool
  | .fin a, .fin b => decide (a < b)
  | _, _ => false

/-- `np.isnan`. -/
def NpFloat.isnan : NpFloat → Bool
  | .nan => true
  | .fin _ => false

/-- `np.tile(m, (n, 1))`: stack `n` copies of the matrix `m`. -/
def np_tile (m : List (List ℚ)) (n : ℕ) : List (List ℚ) :=
  (List.replicate n m).flatten

/-- `np.hstack((a, b))` for two matrices with the same number of rows:
concatenate row-wise. -/
def np_hstack (a b : List (List ℚ)) : List (List ℚ) :=
  List.zipWith (fun r s => r ++ s) a b

/-- Python `int(q)`: truncation toward zero. -/
def pyInt (q : ℚ) : ℤ := if 0 ≤ q then ⌊q⌋ else ⌈q⌉

/-- `self.var_threshold = 10 ** -5`: the variance floor. -/
def var_threshold : ℚ := 1 / 10 ^ 5

/-- The variance floor as a possibly-`NaN` float. -/
def var_threshold_f : NpFloat := NpFloat.fin var_threshold

/-- The `max_features` value computed in `RandomForestWithInstances.__init__`:
`0 if ratio_features >= 1.0 else max(1, int(types.shape[0] * ratio_features))`. -/
def init_max_features (types : List ℕ) (ratio_features : ℚ) : ℤ :=
  if 1 ≤ ratio_features then 0
  else max 1 (pyInt ((types.length : ℚ) * ratio_features))

/-- The container built by `pyrfr.regression.numpy_data_container(X, y, types)`:
it records exactly its three arguments. -/
structure DataContainer where
  X : List (List ℚ)
  y : List ℚ
  types : List ℕ
deriving DecidableEq, Repr

/-- `pyrfr.regression.numpy_data_container`. -/
def numpy_data_container (X : List (List ℚ)) (y : List ℚ) (types : List ℕ) :
    DataContainer := ⟨X, y, types⟩

/-- The adapter's state: the feature specification `types`, the optional
instance-feature matrix, the hyperparameter list stored in `self.hypers`
(kept abstract), the stored training data `X`, `Y`, and the fitted native
forest of abstract type `F`. -/
structure RandomForestWithInstances (F : Type) where
  types : List ℕ
  instance_features : Option (List (List ℚ))
  hypers : List ℚ
  X : List (List ℚ)
  Y : List (List ℚ)
  rf : F

/-- `train(self, X, Y)`: stores `X` and `Y`, builds the native container
from `X`, `Y[:, 0]` (the first entry of each row of `Y`) and `self.types`,
and fits the forest (`fit` models `self.rf.fit` returning the fitted
native forest). -/
def RandomForestWithInstances.train {F : Type}
    (s : RandomForestWithInstances F) (fit : DataContainer → F)
    (X Y : List (List ℚ)) : RandomForestWithInstances F :=
  ⟨s.types, s.instance_features, s.hypers, X, Y,
    fit (numpy_data_container X (Y.map (fun row => row.headI)) s.types)⟩

/-- `predict(self, Xtest)` as a function of the native forest's per-row
predictor `rf` (modelling `self.rf.predict`), the configured instance
features, and the test matrix `Xtest`.  If instance features are absent or
empty, the rows of `Xtest` are predicted directly; otherwise `Xtest` is
tiled to the number of instances and h-stacked with the instance features.
Each row is predicted, then
`var = np.mean(var) + np.var(mean)` and `mean = np.mean(mean)`. -/
def RandomForestWithInstances.predict (rf : List ℚ → ℚ × ℚ)
    (instance_features : Option (List (List ℚ)))
    (Xtest : List (List ℚ)) : NpVal × NpVal :=
  let Xall : List (List ℚ) :=
    match instance_features with
    | none => Xtest
    | some feats =>
        if feats.length = 0 then Xtest
        else np_hstack (np_tile Xtest feats.length) feats
  let pred := Xall.map rf
  let mean := pred.map Prod.fst
  let var := pred.map Prod.snd
  let varOut := npMean var + npVar mean
  let meanOut := npMean mean
  (NpVal.scalar meanOut, NpVal.scalar varOut)

/-- `predict` as a state transformer: the method reads
`self.instance_features` and `self.rf` and assigns nothing to `self`, so
the state it runs in is returned alongside the result.  `rfP` models the
native engine's `predict` method on a fitted forest. -/
def RandomForestWithInstances.predictState {F : Type}
    (s : RandomForestWithInstances F) (rfP : F → List ℚ → ℚ × ℚ)
    (Xtest : List (List ℚ)) :
    RandomForestWithInstances F × (NpVal × NpVal) :=
  (s, RandomForestWithInstances.predict (rfP s.rf) s.instance_features Xtest)

/-- The argument of `_predict`: a 1-d vector or a 2-d matrix
(the code branches on `len(X.shape) > 1`). -/
inductive NpInput where
  | oneD (x : List ℚ)
  | twoD (xs : List (List ℚ))

/-- The result of `_predict`: the mean vector, the variance vector (whose
entries may be `NaN`), and whether the debug log message
"Standard deviation is small, capping to 10^-5" was emitted. -/
structure PredictResult where
  mean : List ℚ
  var : List NpFloat
  logged : Bool
deriving DecidableEq, Repr

/-- `_predict(self, X)` as a function of the native per-row predictor `rf`
(whose variance output may be `NaN`).  Batch path: predict every row, then
`var[var < self.var_threshold] = self.var_threshold` followed by
`var[np.isnan(var)] = self.var_threshold`.  Single path: predict once; if
`var < self.var_threshold`, emit a debug log message and set
`var = self.var_threshold`; wrap mean and variance as length-1 arrays. -/
def RandomForestWithInstances._predict (rf : List ℚ → ℚ × NpFloat)
    (X : NpInput) : PredictResult :=
  match X with
  | .twoD xs =>
      let pred := xs.map rf
      let mean := pred.map Prod.fst
      let var := pred.map Prod.snd
      let var1 := var.map (fun v => if NpFloat.lt v var_threshold_f then var_threshold_f else v)
      let var2 := var1.map (fun v => if v.isnan then var_threshold_f else v)
      ⟨mean, var2, false⟩
  | .oneD x =>
      let mv := rf x
      let logged := NpFloat.lt mv.2 var_threshold_f
      let v := if NpFloat.lt mv.2 var_threshold_f then var_threshold_f else mv.2
      ⟨[mv.1], [v], logged⟩

/-- A constant native forest returning mean `0`, variance `0` for every
point (a possible per-row output: all trees agree on an observed value). -/
def constForest0 : List ℚ → ℚ × ℚ := fun _ => (0, 0)

/-- A constant native forest returning mean `1`, variance `1`. -/
def constForest1 : List ℚ → ℚ × ℚ := fun _ => (1, 1)

/-- A concrete adapter state (feature specification `[0, 0]`, no instance
features, untrained), with the fitted-forest type instantiated by
`DataContainer` so that fitting can be the identity. -/
def sampleRF : RandomForestWithInstances DataContainer :=
  ⟨[0, 0], none, [], [], [], ⟨[], [], []⟩⟩

/-! ### Arithmetic facts about `npMean` and `npVar` -/

lemma npMean_singleton (a : ℚ) : npMean [a] = a := by
  simp [npMean]

lemma npVar_singleton (a : ℚ) : npVar [a] = 0 := by
  simp [npVar, npMean]

lemma npVar_nonneg (l : List ℚ) : 0 ≤ npVar l := by
  apply div_nonneg
  · apply List.sum_nonneg
    intro x hx
    obtain ⟨a, _, rfl⟩ := List.mem_map.mp hx
    positivity
  · positivity

lemma length_mul_le_sum (c : ℚ) (l : List ℚ) (h : ∀ a ∈ l, c ≤ a) :
    (l.length : ℚ) * c ≤ l.sum := by
  induction l with
  | nil => simp
  | cons a t ih =>
    have ha : c ≤ a := h a (List.mem_cons_self a t)
    have ht := ih (fun b hb => h b (List.mem_cons_of_mem a hb))
    simp only [List.length_cons, List.sum_cons]
    push_cast
    linarith

lemma le_npMean (c : ℚ) (l : List ℚ) (h0 : l ≠ []) (h : ∀ a ∈ l, c ≤ a) :
    c ≤ npMean l := by
  have hpos : (0 : ℚ) < l.length := by
    exact_mod_cast List.length_pos.mpr h0
  rw [npMean, le_div_iff₀ hpos]
  calc c * (l.length : ℚ) = (l.length : ℚ) * c := mul_comm _ _
    _ ≤ l.sum := length_mul_le_sum c l h

lemma sum_eq_zero_iff_of_nonneg (l : List ℚ) (h : ∀ a ∈ l, 0 ≤ a) :
    l.sum = 0 ↔ ∀ a ∈ l, a = 0 := by
  induction l with
  | nil => simp
  | cons a t ih =>
    have ha : 0 ≤ a := h a (List.mem_cons_self a t)
    have hta : ∀ b ∈ t, (0 : ℚ) ≤ b := fun b hb => h b (List.mem_cons_of_mem a hb)
    have ht : 0 ≤ t.sum := List.sum_nonneg hta
    simp only [List.sum_cons, List.mem_cons]
    constructor
    · intro hz
      have ha0 : a = 0 := by linarith
      have ht0 : t.sum = 0 := by linarith
      intro b hb
      rcases hb with rfl | hb
      · exact ha0
      · exact ((ih hta).mp ht0) b hb
    · intro hz
      have ha0 : a = 0 := hz a (Or.inl rfl)
      have ht0 : t.sum = 0 := (ih hta).mpr (fun b hb => hz b (Or.inr hb))
      rw [ha0, ht0, add_zero]

lemma npMean_const (c : ℚ) (l : List ℚ) (h0 : l ≠ []) (h : ∀ a ∈ l, a = c) :
    npMean l = c := by
  have hrep : l = List.replicate l.length c := List.eq_replicate_of_mem h
  have hne : ((l.length : ℚ)) ≠ 0 :=
    Nat.cast_ne_zero.mpr (List.length_pos.mpr h0).ne'
  have hsum : l.sum = (l.length : ℚ) * c := by
    conv_lhs => rw [hrep]
    rw [List.sum_replicate, nsmul_eq_mul]
  rw [npMean, hsum]
  exact mul_div_cancel_left₀ c hne

lemma npMean_sq_eq_zero_iff (c : ℚ) (l : List ℚ) (h0 : l ≠ []) :
    npMean (l.map (fun x => (x - c) ^ 2)) = 0 ↔ ∀ a ∈ l, a = c := by
  have hnn : ∀ y ∈ l.map (fun x => (x - c) ^ 2), (0 : ℚ) ≤ y := by
    intro y hy
    obtain ⟨a, _, rfl⟩ := List.mem_map.mp hy
    positivity
  have hne : (((l.map (fun x => (x - c) ^ 2)).length : ℚ)) ≠ 0 := by
    rw [List.length_map]
    exact Nat.cast_ne_zero.mpr (List.length_pos.mpr h0).ne'
  rw [npMean, div_eq_zero_iff]
  constructor
  · rintro (hsum | hlen)
    · intro a ha
      have hsq := (sum_eq_zero_iff_of_nonneg _ hnn).mp hsum ((a - c) ^ 2)
        (List.mem_map_of_mem _ ha)
      have h2 : a - c = 0 := (pow_eq_zero_iff two_ne_zero).mp hsq
      linarith
    · exact absurd hlen hne
  · intro h
    left
    apply (sum_eq_zero_iff_of_nonneg _ hnn).mpr
    intro y hy
    obtain ⟨a, ha, rfl⟩ := List.mem_map.mp hy
    rw [h a ha]
    ring

lemma npVar_eq_zero_iff (l : List ℚ) (h0 : l ≠ []) :
    npVar l = 0 ↔ ∀ a ∈ l, a = npMean l :=
  npMean_sq_eq_zero_iff (npMean l) l h0

lemma all_eq_npMean_iff_pairwise (l : List ℚ) (h0 : l ≠ []) :
    (∀ a ∈ l, a = npMean l) ↔ ∀ a ∈ l, ∀ b ∈ l, a = b := by
  constructor
  · intro h a ha b hb
    rw [h a ha, h b hb]
  · intro h a ha
    exact (npMean_const a l h0 (fun b hb => h b hb a ha)).symm

/-! ### Structural facts about the augmented matrix of `predict` -/

lemma np_tile_single (x : List ℚ) (n : ℕ) : np_tile [x] n = List.replicate n x := by
  induction n with
  | zero => rfl
  | succ k ih =>
    unfold np_tile at ih ⊢
    rw [List.replicate_succ, List.flatten_cons, ih, List.replicate_succ]
    rfl

lemma np_hstack_replicate (x : List ℚ) (feats : List (List ℚ)) :
    np_hstack (List.replicate feats.length x) feats = feats.map (fun f => x ++ f) := by
  induction feats with
  | nil => rfl
  | cons f t ih =>
    unfold np_hstack at ih ⊢
    rw [List.length_cons, List.replicate_succ]
    simp only [List.zipWith_cons_cons, List.map_cons]
    rw [ih]

lemma predict_none_single (rf : List ℚ → ℚ × ℚ) (x : List ℚ) :
    RandomForestWithInstances.predict rf none [x] =
      (NpVal.scalar (rf x).1, NpVal.scalar (rf x).2) := by
  unfold RandomForestWithInstances.predict
  simp [npMean_singleton, npVar_singleton]

lemma predict_some_nil_single (rf : List ℚ → ℚ × ℚ) (x : List ℚ) :
    RandomForestWithInstances.predict rf (some []) [x] =
      (NpVal.scalar (rf x).1, NpVal.scalar (rf x).2) := by
  unfold RandomForestWithInstances.predict
  simp [npMean_singleton, npVar_singleton]

lemma predict_withFeats (rf : List ℚ → ℚ × ℚ) (feats : List (List ℚ))
    (x : List ℚ) (h0 : feats ≠ []) :
    RandomForestWithInstances.predict rf (some feats) [x] =
      (NpVal.scalar (npMean (feats.map (fun f => (rf (x ++ f)).1))),
       NpVal.scalar (npMean (feats.map (fun f => (rf (x ++ f)).2)) +
         npVar (feats.map (fun f => (rf (x ++ f)).1)))) := by
  have hlen : feats.length ≠ 0 := fun h => h0 (List.length_eq_zero.mp h)
  unfold RandomForestWithInstances.predict
  simp only [if_neg hlen, np_tile_single, np_hstack_replicate, List.map_map]
  rfl

/-! ### Claim theorems -/

/-- C2: at construction, the forest's max-features-per-split is `0`
(unlimited) whenever `ratio_features ≥ 1`, and otherwise
`max(1, ⌊D * ratio_features⌋)` where `D` is the length of the feature
specification; `D = 6` with ratio `5/6` yields `5`, and `D = 2` with
ratio `5/6` yields `1`. -/
theorem init_max_features_spec :
    (∀ (types : List ℕ) (r : ℚ),
      init_max_features types r =
        if 1 ≤ r then 0 else max 1 ⌊(types.length : ℚ) * r⌋) ∧
    init_max_features [0, 0, 0, 0, 0, 0] (5 / 6) = 5 ∧
    init_max_features [0, 0] (5 / 6) = 1 := by
  refine ⟨fun types r => ?_, ?_, ?_⟩
  · unfold init_max_features pyInt
    by_cases h1 : 1 ≤ r
    · rw [if_pos h1, if_pos h1]
    · rw [if_neg h1, if_neg h1]
      by_cases h0 : 0 ≤ (types.length : ℚ) * r
      · rw [if_pos h0]
      · rw [if_neg h0]
        push_neg at h0
        have hc0 : ⌈(types.length : ℚ) * r⌉ ≤ (0 : ℤ) :=
          Int.ceil_le.mpr (by exact_mod_cast h0.le)
        have hceil : ⌈(types.length : ℚ) * r⌉ ≤ 1 := by omega
        have hfloor : ⌊(types.length : ℚ) * r⌋ ≤ 1 := by
          have := Int.floor_le_ceil ((types.length : ℚ) * r)
          omega
        rw [max_eq_left hceil, max_eq_left hfloor]
  · unfold init_max_features pyInt
    rw [if_neg (by norm_num : ¬ ((1 : ℚ) ≤ 5 / 6))]
    have hl : ((([0, 0, 0, 0, 0, 0] : List ℕ).length : ℚ)) = 6 := by norm_num
    rw [hl, if_pos (by norm_num : (0 : ℚ) ≤ 6 * (5 / 6))]
    have h5 : (6 : ℚ) * (5 / 6) = ((5 : ℤ) : ℚ) := by norm_num
    rw [h5, Int.floor_intCast, max_eq_right (by norm_num : (1 : ℤ) ≤ 5)]
  · unfold init_max_features pyInt
    rw [if_neg (by norm_num : ¬ ((1 : ℚ) ≤ 5 / 6))]
    have hl : ((([0, 0] : List ℕ).length : ℚ)) = 2 := by norm_num
    rw [hl, if_pos (by norm_num : (0 : ℚ) ≤ 2 * (5 / 6))]
    have hf : ⌊(2 : ℚ) * (5 / 6)⌋ = 1 := by
      rw [Int.floor_eq_iff]
      constructor <;> norm_num
    rw [hf, max_eq_right (by norm_num : (1 : ℤ) ≤ 1)]

/-- C1: with `K ≥ 1` configured instance rows, `predict` on a single test
point evaluates the forest on each augmented row `x ++ feats[i]` and
returns mean = arithmetic mean of the `K` per-row means, and
variance = arithmetic mean of the `K` per-row variances plus the
population variance (no degrees-of-freedom correction) of the `K`
per-row means. -/
theorem predict_marginalizes (rf : List ℚ → ℚ × ℚ) (feats : List (List ℚ))
    (x : List ℚ) (h : 1 ≤ feats.length) :
    RandomForestWithInstances.predict rf (some feats) [x] =
      (NpVal.scalar (npMean (feats.map (fun f => (rf (x ++ f)).1))),
       NpVal.scalar (npMean (feats.map (fun f => (rf (x ++ f)).2)) +
         npVar (feats.map (fun f => (rf (x ++ f)).1)))) :=
  predict_withFeats rf feats x (List.length_pos.mp h)

/-- Witness for `predict_marginalizes`: two instance rows and a constant
forest. -/
theorem predict_marginalizes_witness :
    1 ≤ ([[(1 : ℚ)], [3]] : List (List ℚ)).length ∧
    RandomForestWithInstances.predict constForest1 (some [[(1 : ℚ)], [3]]) [[2]] =
      (NpVal.scalar (npMean (([[(1 : ℚ)], [3]] : List (List ℚ)).map
          (fun f => (constForest1 ([2] ++ f)).1))),
       NpVal.scalar (npMean (([[(1 : ℚ)], [3]] : List (List ℚ)).map
          (fun f => (constForest1 ([2] ++ f)).2)) +
         npVar (([[(1 : ℚ)], [3]] : List (List ℚ)).map
          (fun f => (constForest1 ([2] ++ f)).1)))) :=
  ⟨by decide, predict_marginalizes constForest1 [[(1 : ℚ)], [3]] [2] (by decide)⟩

/-- C5: with no instance features configured (`None`, or the edge case of
a zero-row matrix), `predict` on a single test point returns exactly the
native forest's direct mean and variance for that point. -/
theorem predict_no_instance_features (rf : List ℚ → ℚ × ℚ) (x : List ℚ) :
    RandomForestWithInstances.predict rf none [x] =
      (NpVal.scalar (rf x).1, NpVal.scalar (rf x).2) ∧
    RandomForestWithInstances.predict rf (some []) [x] =
      (NpVal.scalar (rf x).1, NpVal.scalar (rf x).2) :=
  ⟨predict_none_single rf x, predict_some_nil_single rf x⟩

/-- C4: with `K ≥ 1` configured instance rows, the variance returned by
`predict` is at least the arithmetic mean of the `K` per-row variances,
with equality exactly when all `K` per-row means are identical. -/
theorem predict_var_ge_mean_var (rf : List ℚ → ℚ × ℚ) (feats : List (List ℚ))
    (x : List ℚ) (h : 1 ≤ feats.length) (v : ℚ)
    (hv : (RandomForestWithInstances.predict rf (some feats) [x]).2 = NpVal.scalar v) :
    npMean (feats.map (fun f => (rf (x ++ f)).2)) ≤ v ∧
    (v = npMean (feats.map (fun f => (rf (x ++ f)).2)) ↔
      ∀ m1 ∈ feats.map (fun f => (rf (x ++ f)).1),
        ∀ m2 ∈ feats.map (fun f => (rf (x ++ f)).1), m1 = m2) := by
  have h0 : feats ≠ [] := List.length_pos.mp h
  have hm0 : feats.map (fun f => (rf (x ++ f)).1) ≠ [] := by
    simpa using h0
  rw [predict_withFeats rf feats x h0] at hv
  have hv' : npMean (feats.map (fun f => (rf (x ++ f)).2)) +
      npVar (feats.map (fun f => (rf (x ++ f)).1)) = v := NpVal.scalar.inj hv
  have hnn := npVar_nonneg (feats.map (fun f => (rf (x ++ f)).1))
  constructor
  · linarith
  · constructor
    · intro hvv
      have hz : npVar (feats.map (fun f => (rf (x ++ f)).1)) = 0 := by linarith
      exact (all_eq_npMean_iff_pairwise _ hm0).mp ((npVar_eq_zero_iff _ hm0).mp hz)
    · intro hp
      have hz : npVar (feats.map (fun f => (rf (x ++ f)).1)) = 0 :=
        (npVar_eq_zero_iff _ hm0).mpr ((all_eq_npMean_iff_pairwise _ hm0).mpr hp)
      rw [hz, add_zero] at hv'
      exact hv'.symm

/-- Witness for `predict_var_ge_mean_var`: a constant forest, whose
per-row means all coincide, so the bound holds with equality. -/
theorem predict_var_ge_mean_var_witness :
    1 ≤ ([[(1 : ℚ)], [3]] : List (List ℚ)).length ∧
    (RandomForestWithInstances.predict constForest1 (some [[(1 : ℚ)], [3]]) [[2]]).2 =
      NpVal.scalar 1 ∧
    (npMean (([[(1 : ℚ)], [3]] : List (List ℚ)).map
        (fun f => (constForest1 ([2] ++ f)).2)) ≤ 1 ∧
      ((1 : ℚ) = npMean (([[(1 : ℚ)], [3]] : List (List ℚ)).map
          (fun f => (constForest1 ([2] ++ f)).2)) ↔
        ∀ m1 ∈ ([[(1 : ℚ)], [3]] : List (List ℚ)).map
            (fun f => (constForest1 ([2] ++ f)).1),
          ∀ m2 ∈ ([[(1 : ℚ)], [3]] : List (List ℚ)).map
            (fun f => (constForest1 ([2] ++ f)).1), m1 = m2)) :=
  by
  have hv : (RandomForestWithInstances.predict constForest1
      (some [[(1 : ℚ)], [3]]) [[2]]).2 = NpVal.scalar 1 := by
    rw [predict_withFeats constForest1 [[(1 : ℚ)], [3]] [2] (by simp)]
    norm_num [constForest1, npMean, npVar]
  exact ⟨by decide, hv,
    predict_var_ge_mean_var constForest1 [[(1 : ℚ)], [3]] [2] (by decide) 1 hv⟩

/-- C3: in the batch (2-D) path of `_predict`, for every row of the input
the returned mean entry is the forest's per-row mean unchanged, and the
returned variance entry is the forest's per-row variance with entries
strictly below `1e-5` and `NaN` entries replaced by exactly `1e-5`, all
other entries unchanged. -/
theorem predict_batch_clamps (rf : List ℚ → ℚ × NpFloat)
    (xs : List (List ℚ)) (i : ℕ) (x : List ℚ) (hx : xs[i]? = some x) :
    (RandomForestWithInstances._predict rf (NpInput.twoD xs)).mean[i]? =
      some (rf x).1 ∧
    (RandomForestWithInstances._predict rf (NpInput.twoD xs)).var[i]? =
      some (match (rf x).2 with
        | NpFloat.nan => NpFloat.fin var_threshold
        | NpFloat.fin q =>
            if q < var_threshold then NpFloat.fin var_threshold
            else NpFloat.fin q) := by
  unfold RandomForestWithInstances._predict
  simp only [List.map_map, List.getElem?_map, hx, Option.map_some']
  constructor
  · rfl
  · cases hv : (rf x).2 with
    | nan => simp [Function.comp, NpFloat.lt, NpFloat.isnan, hv, var_threshold_f]
    | fin q =>
      by_cases hq : q < var_threshold
      · simp [Function.comp, NpFloat.lt, NpFloat.isnan, hv, hq, var_threshold_f]
      · simp [Function.comp, NpFloat.lt, NpFloat.isnan, hv, hq, var_threshold_f]

/-- Witness for `predict_batch_clamps`: a two-row batch whose first row
gets variance `NaN` from the forest. -/
theorem predict_batch_clamps_witness :
    (([[(0 : ℚ)], [1]] : List (List ℚ))[0]? = some [(0 : ℚ)]) ∧
    ((RandomForestWithInstances._predict (fun _ => (2, NpFloat.nan))
        (NpInput.twoD [[(0 : ℚ)], [1]])).mean[0]? = some 2 ∧
     (RandomForestWithInstances._predict (fun _ => (2, NpFloat.nan))
        (NpInput.twoD [[(0 : ℚ)], [1]])).var[0]? =
       some (NpFloat.fin var_threshold)) :=
  ⟨by decide,
   predict_batch_clamps (fun _ => (2, NpFloat.nan)) [[(0 : ℚ)], [1]] 0
     [(0 : ℚ)] (by decide)⟩

/-- C6: in the single-vector (1-D) path of `_predict`, the mean and
variance are returned as length-1 arrays; a finite variance strictly
below `1e-5` is replaced by exactly `1e-5`, and `logged` (the debug log
emission) is exactly the below-floor test; a `NaN` variance is not
replaced: the IEEE comparison with the floor is false, so it passes
through unchanged and no log message is emitted. -/
theorem predict_single_path (rf : List ℚ → ℚ × NpFloat) (x : List ℚ) :
    (RandomForestWithInstances._predict rf (NpInput.oneD x)).mean = [(rf x).1] ∧
    (RandomForestWithInstances._predict rf (NpInput.oneD x)).var =
      [match (rf x).2 with
        | NpFloat.nan => NpFloat.nan
        | NpFloat.fin q =>
            if q < var_threshold then NpFloat.fin var_threshold
            else NpFloat.fin q] ∧
    (RandomForestWithInstances._predict rf (NpInput.oneD x)).logged =
      NpFloat.lt (rf x).2 var_threshold_f := by
  unfold RandomForestWithInstances._predict
  refine ⟨rfl, ?_, rfl⟩
  cases hv : (rf x).2 with
  | nan => simp [NpFloat.lt, hv]
  | fin q =>
    by_cases hq : q < var_threshold
    · simp [NpFloat.lt, hv, hq, var_threshold_f]
    · simp [NpFloat.lt, hv, hq, var_threshold_f]

/-- C7 counterexample: the public `predict` applies no variance floor: a
native forest whose per-row output is mean `0`, variance `0` (a possible
output, e.g. when all trees agree on an observed value) makes `predict`
return variance `0`, strictly below the floor `1e-5`. -/
theorem predict_no_floor_cex :
    (RandomForestWithInstances.predict constForest0 none [[0, 0]]).2 =
      NpVal.scalar 0 ∧ (0 : ℚ) < var_threshold := by
  constructor
  · simp [predict_none_single, constForest0]
  · norm_num [var_threshold]

/-- C7 amended: `predict` on a single test point applies no floor of its
own, but it does return a variance of at least `1e-5` whenever every
per-row variance of the native forest is at least `1e-5`, since the
between-instance term it adds is nonnegative. -/
theorem predict_var_floor_amended (rf : List ℚ → ℚ × ℚ)
    (ifeats : Option (List (List ℚ))) (x : List ℚ)
    (hrf : ∀ y : List ℚ, var_threshold ≤ (rf y).2) (v : ℚ)
    (hv : (RandomForestWithInstances.predict rf ifeats [x]).2 = NpVal.scalar v) :
    var_threshold ≤ v := by
  cases ifeats with
  | none =>
    rw [predict_none_single] at hv
    rw [← NpVal.scalar.inj hv]
    exact hrf x
  | some feats =>
    cases feats with
    | nil =>
      rw [predict_some_nil_single] at hv
      rw [← NpVal.scalar.inj hv]
      exact hrf x
    | cons f t =>
      have h0 : (f :: t : List (List ℚ)) ≠ [] := by simp
      rw [predict_withFeats rf (f :: t) x h0] at hv
      have hv' := NpVal.scalar.inj hv
      have h1 : var_threshold ≤ npMean ((f :: t).map (fun g => (rf (x ++ g)).2)) := by
        apply le_npMean
        · simp
        · intro a ha
          obtain ⟨g, _, rfl⟩ := List.mem_map.mp ha
          exact hrf (x ++ g)
      have h2 := npVar_nonneg ((f :: t).map (fun g => (rf (x ++ g)).1))
      linarith

/-- Witness for `predict_var_floor_amended`: a forest with constant
variance `1 ≥ 1e-5`. -/
theorem predict_var_floor_amended_witness :
    (RandomForestWithInstances.predict constForest1 none [[0, 0]]).2 =
      NpVal.scalar 1 ∧
    var_threshold ≤ (1 : ℚ) := by
  have hv : (RandomForestWithInstances.predict constForest1 none [[0, 0]]).2 =
      NpVal.scalar 1 := by
    simp [predict_none_single, constForest1]
  exact ⟨hv, predict_var_floor_amended constForest1 none [0, 0]
    (fun y => by norm_num [constForest1, var_threshold]) 1 hv⟩

/-- C8: at the failing input, `predict` returns its mean and variance as
0-d numpy scalars produced by `np.mean`, not as the length-1 arrays the
docstring promises: both components are `scalar`s, and a `scalar` is not
a length-1 `vec`. -/
theorem predict_returns_scalars :
    RandomForestWithInstances.predict constForest1 none [[0, 0]] =
      (NpVal.scalar 1, NpVal.scalar 1) ∧
    NpVal.isScalar (RandomForestWithInstances.predict constForest1 none [[0, 0]]).1 = true ∧
    NpVal.isScalar (RandomForestWithInstances.predict constForest1 none [[0, 0]]).2 = true ∧
    NpVal.isScalar (NpVal.vec [(1 : ℚ)]) = false := by
  have h : RandomForestWithInstances.predict constForest1 none [[0, 0]] =
      (NpVal.scalar 1, NpVal.scalar 1) := by
    simp [predict_none_single, constForest1]
  refine ⟨h, ?_, ?_, rfl⟩
  · rw [h]
    rfl
  · rw [h]
    rfl

/-- C9: `predict` never mutates the adapter's state: the state after a
`predictState` call equals the state before it, component by component;
`train` replaces exactly the stored training data and fitted model,
leaving the feature specification, the instance-feature matrix and the
hyperparameter list unchanged. -/
theorem predict_frame (F : Type) (rfP : F → List ℚ → ℚ × ℚ)
    (fit : DataContainer → F) (s : RandomForestWithInstances F)
    (Xtest X Y : List (List ℚ)) :
    (s.predictState rfP Xtest).1 = s ∧
    (s.predictState rfP Xtest).1.X = s.X ∧
    (s.predictState rfP Xtest).1.Y = s.Y ∧
    (s.predictState rfP Xtest).1.instance_features = s.instance_features ∧
    (s.predictState rfP Xtest).1.types = s.types ∧
    (s.predictState rfP Xtest).1.hypers = s.hypers ∧
    (s.predictState rfP Xtest).1.rf = s.rf ∧
    (s.train fit X Y).types = s.types ∧
    (s.train fit X Y).instance_features = s.instance_features ∧
    (s.train fit X Y).hypers = s.hypers ∧
    (s.train fit X Y).X = X ∧
    (s.train fit X Y).Y = Y ∧
    (s.train fit X Y).rf =
      fit (numpy_data_container X (Y.map (fun row => row.headI)) s.types) :=
  ⟨rfl, rfl, rfl, rfl, rfl, rfl, rfl, rfl, rfl, rfl, rfl, rfl, rfl⟩

/-- C10: the native training container is built from `X`, the feature
specification, and only the first column of `Y`: training with two `Y`
matrices that agree in their first column fits the same forest, while the
full `Y` matrix is stored on the adapter. -/
theorem train_uses_first_column (F : Type) (fit : DataContainer → F)
    (s : RandomForestWithInstances F) (X Y Yother : List (List ℚ))
    (h : Y.map (fun row => row.headI) = Yother.map (fun row => row.headI)) :
    (s.train fit X Y).rf = (s.train fit X Yother).rf ∧
    (s.train fit X Y).Y = Y ∧ (s.train fit X Yother).Y = Yother := by
  unfold RandomForestWithInstances.train
  refine ⟨?_, rfl, rfl⟩
  simp only [numpy_data_container, h]

/-- Witness for `train_uses_first_column`: two target matrices sharing the
first column but differing in the second. -/
theorem train_uses_first_column_witness :
    (([[(1 : ℚ), 2]] : List (List ℚ)).map (fun row => row.headI) =
      ([[(1 : ℚ), 3]] : List (List ℚ)).map (fun row => row.headI)) ∧
    ((sampleRF.train id [[0, 0]] [[(1 : ℚ), 2]]).rf =
        (sampleRF.train id [[0, 0]] [[(1 : ℚ), 3]]).rf ∧
     (sampleRF.train id [[0, 0]] [[(1 : ℚ), 2]]).Y = [[(1 : ℚ), 2]] ∧
     (sampleRF.train id [[0, 0]] [[(1 : ℚ), 3]]).Y = [[(1 : ℚ), 3]]) :=
  ⟨by decide,
   train_uses_first_column DataContainer id sampleRF [[0, 0]]
     [[(1 : ℚ), 2]] [[(1 : ℚ), 3]] (by decide)⟩
